import Mathlib

set_option autoImplicit false

namespace RetailT2Data

/-!  A shallow embedding of the retail-t2data backend (src/backend/app.py and
src/data_agent/instructions.py): the input sanitizer, the chat orchestration
loop over agent events, the URL-keyed response cache, the table-listing and
code-file routes, and the startup prompt assembly.  -/

/-! ## sanitize_for_log (src/backend/app.py lines 18-23)

`re.sub(r'[\x00-\x1f\x7f]', '?', value)` replaces every character in
U+0000..U+001F and U+007F by '?'.  When the value is not a string (in
particular Python `None` coming from a missing JSON key), the source first
converts it with `str(...)`, so `None` becomes the four-character string
"None".  -/

def isStrippedChar (c : Char) : Bool := c.toNat ≤ 0x1f || c.toNat == 0x7f

def sanitizeChars (l : List Char) : List Char :=
  l.map (fun c => if isStrippedChar c then '?' else c)

def sanitize_for_log (s : String) : String := ⟨sanitizeChars s.data⟩

/-- Applying `sanitize_for_log(req_data.get(k))`: a missing key yields Python `None`,
which `sanitize_for_log` stringifies to "None" before the substitution. -/
def sanitizeField : Option String → String
  | some s => sanitize_for_log s
  | none => sanitize_for_log "None"

/-! ## Agent event model (google.adk events as consumed by chat_handler) -/

structure FunctionCall where
  sql_query : Option String
deriving DecidableEq

structure ContentPart where
  text : Option String
  function_call : Option FunctionCall
deriving DecidableEq

structure EventContent where
  role : String
  parts : List ContentPart
deriving DecidableEq

structure AgentEvent where
  error_code : Option String
  content : Option EventContent
deriving DecidableEq

/-- Python truthiness of an optional string attribute: present and non-empty. -/
def truthyStr : Option String → Bool
  | some s => s ≠ ""
  | none => false

/-- Truthiness of the error-code attribute, as in `if event.error_code:`. -/
def carriesError (e : AgentEvent) : Bool := truthyStr e.error_code

/-! ## Chat orchestration loop (src/backend/app.py lines 202-238) -/

structure ChatMsg where
  role : String
  content : String
deriving DecidableEq

/-- The apology f-string of line 208, interpolating the error code after the
fixed text (whose apostrophe is spelled via its code point). -/
def apologyContent (code : String) : String :=
  "I" ++ String.singleton (Char.ofNat 39) ++
    "m sorry, I encountered a technical issue..." ++ code

def apologyMsg (code : String) : ChatMsg := ⟨"assistant", apologyContent code⟩

/-- The fenced code block `sql` wrapping, from line 231. -/
def formattedSql (q : String) : String := "```sql\n" ++ q ++ "\n```"

/-- One iteration of the loop over `event.content.parts`: the pair is
(text_in_this_turn, sql_in_this_turn).  A truthy `part.text` is appended to
the text accumulator; a truthy `sql_query` argument of a function call
overwrites the captured SQL.  -/
def stepPart (acc : String × Option String) (p : ContentPart) : String × Option String :=
  let textAcc : String :=
    match p.text with
    | some t => if t = "" then acc.1 else acc.1 ++ t
    | none => acc.1
  let sqlAcc : Option String :=
    match p.function_call with
    | some fc =>
      match fc.sql_query with
      | some q => if q = "" then acc.2 else some q
      | none => acc.2
    | none => acc.2
  (textAcc, sqlAcc)

/-- Loop-carried state of chat_handler: `final_response_parts`,
`llm_response_text`, `kpi_data["generated_sql"]` (defaultdict sentinel "N/A"),
`kpi_data["llm_round_trips"]`, `kpi_data["agent_error"]`. -/
structure LoopState where
  parts : List ChatMsg
  llmText : String
  generatedSql : String
  roundTrips : Nat
  agentError : Option String
deriving DecidableEq

def initLoopState : LoopState := ⟨[], "", "N/A", 0, none⟩

/-- Body of the `async for event` loop for one non-error event. -/
def processEvent (st : LoopState) (e : AgentEvent) : LoopState :=
  match e.content with
  | none => st
  | some c =>
    if c.role = "model" then
      let ts := c.parts.foldl stepPart ("", none)
      let st1 : LoopState :=
        { st with
          roundTrips := st.roundTrips + 1
          generatedSql := match ts.2 with | some q => q | none => st.generatedSql
          llmText := if ts.1 ≠ "" then st.llmText ++ ts.1 else st.llmText }
      match ts.2 with
      | some q => { st1 with parts := st1.parts ++ [⟨"model", formattedSql q⟩] }
      | none =>
        if ts.1 ≠ "" then { st1 with parts := st1.parts ++ [⟨"model", ts.1⟩] }
        else st1
    else st

/-- The async event loop: consumes events in order; on the first truthy
error code it appends one apology message, records the error, and `break`s,
leaving the rest of the stream unconsumed (returned unchanged). -/
def runLoop : LoopState → List AgentEvent → LoopState × List AgentEvent
  | st, [] => (st, [])
  | st, e :: rest =>
    if carriesError e then
      ({ st with
          parts := st.parts ++ [apologyMsg (e.error_code.getD "")]
          agentError := e.error_code }, rest)
    else
      runLoop (processEvent st e) rest

/-! ## chat_handler (src/backend/app.py lines 175-244) -/

structure ChatRequest where
  user_id : Option String
  session_id : Option String
  message : Option String
deriving DecidableEq

/-- JSON body of the chat response; absent keys are `none`. -/
structure ChatBody where
  session_id : Option String
  messages : Option (List ChatMsg)
  error : Option String
deriving DecidableEq

/-- Arguments of one `runner.run_async(...)` invocation. -/
structure AgentCall where
  user_id : String
  session_id : String
  message : String
deriving DecidableEq

structure ChatResult where
  status : Nat
  body : ChatBody
  agentCalls : List AgentCall
  unconsumed : List AgentEvent
  clarification_asked : Option Bool
  server_error : Option String
deriving DecidableEq

/-- chat_handler, parametrised by the event stream the agent run yields and
by an optional exception (`exc`) raised by the stream after its last yielded
event (reaching it requires consuming the whole list, i.e. no error break). -/
def chat_handler (req : ChatRequest) (events : List AgentEvent) (exc : Option String) :
    ChatResult :=
  let uid := sanitizeField req.user_id
  let sid := sanitizeField req.session_id
  let msg := sanitizeField req.message
  if uid = "" || sid = "" || msg = "" then
    { status := 400
      body := ⟨none, none, some "user_id, session_id, and message are required"⟩
      agentCalls := []
      unconsumed := events
      clarification_asked := none
      server_error := none }
  else
    let r := runLoop initLoopState events
    let st := r.1
    let ok : ChatResult :=
      { status := 200
        body := ⟨some sid, some st.parts, none⟩
        agentCalls := [⟨uid, sid, msg⟩]
        unconsumed := r.2
        clarification_asked := some (decide (st.generatedSql = "N/A" ∧ st.llmText ≠ ""))
        server_error := none }
    match exc with
    | some s =>
      if st.agentError.isNone then
        { status := 500
          body := ⟨some sid, some [], some "Internal server error"⟩
          agentCalls := [⟨uid, sid, msg⟩]
          unconsumed := r.2
          clarification_asked := none
          server_error := some s }
      else ok
    | none => ok

/-! ## URL-keyed response cache (src/backend/app.py lines 85-100)

`wrapper.cache` is a Python dict from the full request URL to
`(result, timestamp)`.  Timestamps (`time.time()`) are modelled as rationals.
A dict is modelled as an association list with first-match lookup and
in-place update (insertion order preserved, as in Python). -/

def CacheMap (α : Type) : Type := List (String × α × ℚ)

def dictLookup {α : Type} : CacheMap α → String → Option (α × ℚ)
  | [], _ => none
  | (k, v, t) :: rest, key => if k = key then some (v, t) else dictLookup rest key

def dictStore {α : Type} : CacheMap α → String → α × ℚ → CacheMap α
  | [], key, vt => [(key, vt.1, vt.2)]
  | (k, v, t) :: rest, key, vt =>
    if k = key then (key, vt.1, vt.2) :: rest else (k, v, t) :: dictStore rest key vt

structure CacheCall (α : Type) where
  result : α
  cacheAfter : CacheMap α
  handlerCalls : Nat

/-- One invocation of the `cache(timeout)` wrapper around handler `f` at time
`now`, with `handlerCalls` counting how many times `f` was invoked. -/
def cachedCall {α : Type} (timeout : ℚ) (f : Unit → α) (c : CacheMap α)
    (url : String) (now : ℚ) : CacheCall α :=
  match dictLookup c url with
  | some (r, ts) =>
    if now - ts < timeout then ⟨r, c, 0⟩
    else
      let r2 := f ()
      ⟨r2, dictStore c url (r2, now), 1⟩
  | none =>
    let r2 := f ()
    ⟨r2, dictStore c url (r2, now), 1⟩

/-! ## list_tables (src/backend/app.py lines 246-262)

The metadata gateway (backend/utils.py BigQuery helpers) is modelled as
fallible operations: `.error` is an exception escaping the helper. -/

structure TableGateway where
  ddl_table_names : Except String (List String)
  total_rows : String → Except String Nat
  total_column_count : Except String Nat

def sumRows (gw : TableGateway) : List String → Except String Nat
  | [] => .ok 0
  | n :: rest => do
    let r ← gw.total_rows n
    let s ← sumRows gw rest
    pure (r + s)

structure TablesBody where
  tables : Option (List String)
  num_tables : Option Nat
  total_columns : Option Nat
  total_rows : Option Nat
  error : Option String
deriving DecidableEq

def list_tables (gw : TableGateway) : Nat × TablesBody :=
  match (do
    let names ← gw.ddl_table_names
    let rows ← sumRows gw names
    let cols ← gw.total_column_count
    pure (names, rows, cols) : Except String (List String × Nat × Nat)) with
  | .ok (names, rows, cols) =>
    (200, ⟨some names, some names.length, some cols, some rows, none⟩)
  | .error _ => (500, ⟨none, none, none, none, some "Internal server error"⟩)

/-! ## get_code_file (src/backend/app.py lines 280-302) -/

/-- POSIX `os.path.basename`: the characters after the last '/'. -/
def basename (p : String) : String :=
  ⟨(p.data.reverse.takeWhile (fun c => c ≠ '/')).reverse⟩

/-- The absolute path of the sandboxed `data_agent` directory
(`os.path.join(os.path.dirname(os.path.dirname(os.path.abspath(__file__))), "data_agent")`). -/
def allowed_dir : String := "/app/data_agent"

inductive OpenOutcome
  | opened (content : String)
  | fileNotFound
  | otherOSError
deriving DecidableEq

/-- Opening `allowed_dir + "/" + name` against a model of the data_agent
directory holding the regular files `files`.  Opening the directory itself
("" after a trailing slash, "." or "..") raises `IsADirectoryError`, which is
not `FileNotFoundError` and falls to the generic handler. -/
def openInSandbox (files : List (String × String)) (name : String) : OpenOutcome :=
  if name = "" || name = "." || name = ".." then .otherOSError
  else
    match files.lookup name with
    | some c => .opened c
    | none => .fileNotFound

structure CodeBody where
  content : Option String
  error : Option String
deriving DecidableEq

/-- Python `str.startswith`. -/
def startswith (s pre : String) : Bool := pre.data.isPrefixOf s.data

def get_code_file (filepathParam : Option String) (files : List (String × String)) :
    Nat × CodeBody :=
  let filepath := sanitizeField filepathParam
  if filepath = "" then (400, ⟨none, some "Filepath is required"⟩)
  else
    let safe_filename := basename filepath
    let abs_filepath := allowed_dir ++ "/" ++ safe_filename
    if ¬ startswith abs_filepath allowed_dir then (400, ⟨none, some "Invalid filepath"⟩)
    else
      match openInSandbox files safe_filename with
      | .opened c => (200, ⟨some c, none⟩)
      | .fileNotFound => (404, ⟨none, some "File not found"⟩)
      | .otherOSError => (500, ⟨none, some "Internal server error"⟩)

/-- Segments of a path split on the slash character, as Python `p.split` with a slash. -/
def splitSegsAux : List Char → List (List Char)
  | [] => [[]]
  | c :: rest =>
    match splitSegsAux rest with
    | [] => [[]]
    | seg :: segs => if c = '/' then [] :: seg :: segs else (c :: seg) :: segs

def splitSegs (p : String) : List String := (splitSegsAux p.data).map (fun l => ⟨l⟩)

/-- Formalisation of the claim notion of a filepath that escapes the
sandboxed directory: interpreted as '/'-separated segments relative to the
sandbox root (".." ascends, "." and empty segments stay put), the path is
absolute or at some point ascends above the root. -/
def escapeDepth : List String → Int → Bool
  | [], _ => false
  | seg :: rest, d =>
    if seg = ".." then (if d ≤ 0 then true else escapeDepth rest (d - 1))
    else if seg = "." || seg = "" then escapeDepth rest d
    else escapeDepth rest (d + 1)

def escapesSandbox (p : String) : Bool :=
  startswith p "/" || escapeDepth (splitSegs p) 0

/-! ## Startup prompt assembly (src/data_agent/instructions.py lines 47-167)

Each external step of `_build_master_instructions` is modelled as a fallible
operation in a `StartupSteps` environment; `.error` means the Python call
raised.  `_log_prompt_for_debugging` and `_save_instructions_for_debugging`
swallow their own exceptions, and the token count has its own inner
`try/except` substituting 0. -/

structure StartupSteps where
  fetch_table_entry_metadata : Except String (List String)
  fetch_bigquery_data_profiles : Except String (List String)
  fetch_sample_data_for_tables : Except String (List String)
  dumps_metadata : List String → Except String String
  dumps_profiles : List String → Except String String
  dumps_samples : List String → Except String String
  load_instructions_yaml : Except String (List String)
  format_template : String → String → String → String → Except String String
  count_tokens : String → Except String Nat
  log_startup_kpis : Except String Unit
  log_prompt_debug : Except String Unit
  save_debug : Except String Unit

/-- Model of `_log_prompt_for_debugging`: catches its own exceptions, never propagates. -/
def _log_prompt_for_debugging (step : Except String Unit) : Unit :=
  match step with
  | .ok _ => ()
  | .error _ => ()

/-- Model of `_save_instructions_for_debugging`: catches its own exceptions (GCS or
local write failure), never propagates. -/
def _save_instructions_for_debugging (step : Except String Unit) : Unit :=
  match step with
  | .ok _ => ()
  | .error _ => ()

/-- The tail of the `try:` block of `_build_master_instructions`, after the
three fetches delivered `table_metadata`, `data_profiles` and `samples`. -/
def buildRest (env : StartupSteps)
    (table_metadata data_profiles samples : List String) : Except String String := do
  let table_metadata_str ← env.dumps_metadata table_metadata
  let data_profiles_str ← env.dumps_profiles data_profiles
  let samples_str ← env.dumps_samples samples
  let instructions_yaml ← env.load_instructions_yaml
  let instruction_template := String.intercalate "\n---\n" instructions_yaml
  let final_prompt ←
    env.format_template instruction_template table_metadata_str data_profiles_str samples_str
  let _ := _log_prompt_for_debugging env.log_prompt_debug
  let _ := _save_instructions_for_debugging env.save_debug
  let token_count : Nat :=
    match env.count_tokens final_prompt with
    | .ok n => n
    | .error _ => 0
  let _ := token_count
  let _ ← env.log_startup_kpis
  pure final_prompt

/-- The body of the `try:` block of `_build_master_instructions`. -/
def buildAttempt (env : StartupSteps) : Except String String := do
  let table_metadata ← env.fetch_table_entry_metadata
  let data_profiles ← env.fetch_bigquery_data_profiles
  let samples ← if data_profiles.isEmpty then env.fetch_sample_data_for_tables else pure []
  buildRest env table_metadata data_profiles samples

/-- Model of `_build_master_instructions`: any exception in the try block yields "". -/
def _build_master_instructions (env : StartupSteps) : String :=
  match buildAttempt env with
  | .ok p => p
  | .error _ => ""

/-! ## Derived descriptions of the loop, used to state the claims -/

/-- The messages a single non-error event appends to `final_response_parts`. -/
def emittedMsgs (e : AgentEvent) : List ChatMsg :=
  match e.content with
  | none => []
  | some c =>
    if c.role = "model" then
      let ts := c.parts.foldl stepPart ("", none)
      match ts.2 with
      | some q => [⟨"model", formattedSql q⟩]
      | none => if ts.1 ≠ "" then [⟨"model", ts.1⟩] else []
    else []

def emittedAll : List AgentEvent → List ChatMsg
  | [] => []
  | e :: rest => emittedMsgs e ++ emittedAll rest

/-- Text contributed by one part (a falsy `part.text` contributes nothing,
which coincides with appending the empty string). -/
def partTextContrib (p : ContentPart) : String :=
  match p.text with
  | some t => t
  | none => ""

/-- The truthy `sql_query` argument contributed by one part, if any. -/
def partSqlContrib (p : ContentPart) : List String :=
  match p.function_call with
  | some fc =>
    match fc.sql_query with
    | some q => if q = "" then [] else [q]
    | none => []
  | none => []

def partsText : List ContentPart → String
  | [] => ""
  | p :: rest => partTextContrib p ++ partsText rest

def partSqls : List ContentPart → List String
  | [] => []
  | p :: rest => partSqlContrib p ++ partSqls rest

/-- Last element of `l`, else the seed `s`: the overwrite pattern of
`sql_in_this_turn`. -/
def lastSql : List String → Option String → Option String
  | [], s => s
  | q :: rest, _ => lastSql rest (some q)

/-- Last element of `l`, else the default `d`. -/
def lastD : List String → String → String
  | [], d => d
  | q :: rest, _ => lastD rest q

/-- Assistant text one event contributes to `llm_response_text`. -/
def eventText (e : AgentEvent) : String :=
  match e.content with
  | some c => if c.role = "model" then partsText c.parts else ""
  | none => ""

/-- The truthy SQL strings one event captures, in part order. -/
def eventSqlList (e : AgentEvent) : List String :=
  match e.content with
  | some c => if c.role = "model" then partSqls c.parts else []
  | none => []

/-- Assistant text a whole (consumed) stream accumulates into
`llm_response_text`. -/
def streamText : List AgentEvent → String
  | [] => ""
  | e :: rest => eventText e ++ streamText rest

/-- All truthy SQL strings captured across a (consumed) stream, in order. -/
def streamSqls : List AgentEvent → List String
  | [] => []
  | e :: rest => eventSqlList e ++ streamSqls rest

/-! ## Helper lemmas about the loop -/

theorem string_append_empty (s : String) : s ++ "" = s := by
  apply String.ext
  simp [String.data_append]

theorem stepPart_eq (t : String) (s : Option String) (p : ContentPart) :
    stepPart (t, s) p = (t ++ partTextContrib p, lastSql (partSqlContrib p) s) := by
  rcases p with ⟨pt, pfc⟩
  simp only [stepPart, partTextContrib, partSqlContrib]
  rcases pt with _ | t0 <;> rcases pfc with _ | ⟨q0⟩
  · simp [lastSql, string_append_empty]
  · rcases q0 with _ | q1
    · simp [lastSql, string_append_empty]
    · by_cases hq : q1 = "" <;> simp [hq, lastSql, string_append_empty]
  · by_cases ht : t0 = "" <;> simp [ht, lastSql, string_append_empty]
  · rcases q0 with _ | q1
    · by_cases ht : t0 = "" <;> simp [ht, lastSql, string_append_empty]
    · by_cases ht : t0 = "" <;> by_cases hq : q1 = "" <;>
        simp [ht, hq, lastSql, string_append_empty]

theorem lastSql_append (a b : List String) (s : Option String) :
    lastSql (a ++ b) s = lastSql b (lastSql a s) := by
  induction a generalizing s with
  | nil => rfl
  | cons q rest ih => simp [lastSql, ih]

theorem foldl_stepPart (ps : List ContentPart) (t : String) (s : Option String) :
    ps.foldl stepPart (t, s) = (t ++ partsText ps, lastSql (partSqls ps) s) := by
  induction ps generalizing t s with
  | nil => simp [partsText, partSqls, lastSql, string_append_empty]
  | cons p rest ih =>
    simp only [List.foldl_cons, stepPart_eq, ih, partsText, partSqls, lastSql_append,
      String.append_assoc]

theorem lastSql_getD (l : List String) (q d : String) :
    (lastSql l (some q)).getD d = lastD l q := by
  induction l generalizing q with
  | nil => rfl
  | cons x rest ih => simp [lastSql, lastD, ih]

theorem lastSql_none_match (l : List String) (d : String) :
    (match lastSql l none with | some q => q | none => d) = lastD l d := by
  cases l with
  | nil => rfl
  | cons q rest =>
    have h1 : lastSql (q :: rest) none = lastSql rest (some q) := rfl
    have h2 : (match lastSql rest (some q) with | some x => x | none => d) =
        (lastSql rest (some q)).getD d := by
      cases lastSql rest (some q) <;> rfl
    rw [h1, h2, lastSql_getD]
    rfl

theorem string_empty_append (s : String) : "" ++ s = s := by
  apply String.ext
  simp [String.data_append]

theorem lastD_append (a b : List String) (d : String) :
    lastD (a ++ b) d = lastD b (lastD a d) := by
  induction a generalizing d with
  | nil => rfl
  | cons q rest ih => simp [lastD, ih]

/-- Full characterisation of one non-error loop iteration: the appended
messages, the accumulated text, the captured SQL, and the untouched
`agent_error` field. -/
theorem processEvent_char (st : LoopState) (e : AgentEvent) :
    (processEvent st e).parts = st.parts ++ emittedMsgs e ∧
    (processEvent st e).llmText = st.llmText ++ eventText e ∧
    (processEvent st e).generatedSql = lastD (eventSqlList e) st.generatedSql ∧
    (processEvent st e).agentError = st.agentError := by
  rcases e with ⟨ec, cont⟩
  cases cont with
  | none => simp [processEvent, emittedMsgs, eventText, eventSqlList, lastD, string_append_empty]
  | some c =>
    by_cases hr : c.role = "model"
    · simp only [processEvent, emittedMsgs, eventText, eventSqlList, hr, if_pos, foldl_stepPart]
      cases hq : lastSql (partSqls c.parts) none with
      | some q =>
        have hl : lastD (partSqls c.parts) st.generatedSql = q := by
          rw [← lastSql_none_match (d := st.generatedSql), hq]
        by_cases ht : "" ++ partsText c.parts = "" <;>
          simp_all [string_empty_append, lastD]
      | none =>
        have hl : lastD (partSqls c.parts) st.generatedSql = st.generatedSql := by
          rw [← lastSql_none_match (d := st.generatedSql), hq]
        by_cases ht : "" ++ partsText c.parts = "" <;>
          simp_all [string_empty_append, string_append_empty]
    · simp [processEvent, emittedMsgs, eventText, eventSqlList, hr, lastD, string_append_empty]

theorem foldl_processEvent_char (events : List AgentEvent) (st : LoopState) :
    (events.foldl processEvent st).parts = st.parts ++ emittedAll events ∧
    (events.foldl processEvent st).llmText = st.llmText ++ streamText events ∧
    (events.foldl processEvent st).generatedSql = lastD (streamSqls events) st.generatedSql ∧
    (events.foldl processEvent st).agentError = st.agentError := by
  induction events generalizing st with
  | nil => simp [emittedAll, streamText, streamSqls, lastD, string_append_empty]
  | cons e rest ih =>
    obtain ⟨h1, h2, h3, h4⟩ := processEvent_char st e
    obtain ⟨g1, g2, g3, g4⟩ := ih (processEvent st e)
    refine ⟨?_, ?_, ?_, ?_⟩
    · rw [List.foldl_cons, g1, h1, emittedAll, List.append_assoc]
    · rw [List.foldl_cons, g2, h2, streamText, String.append_assoc]
    · rw [List.foldl_cons, g3, h3, streamSqls, lastD_append]
    · rw [List.foldl_cons, g4, h4]

theorem emittedMsgs_role (e : AgentEvent) (m : ChatMsg) (hm : m ∈ emittedMsgs e) :
    m.role = "model" := by
  rcases e with ⟨ec, cont⟩
  cases cont with
  | none => simp [emittedMsgs] at hm
  | some c =>
    by_cases hr : c.role = "model"
    · simp only [emittedMsgs, hr, if_pos] at hm
      cases hq : (c.parts.foldl stepPart ("", none)).2 with
      | some q => simp [hq] at hm; simp [hm]
      | none =>
        rw [hq] at hm
        by_cases ht : (c.parts.foldl stepPart ("", none)).1 ≠ "" <;> simp_all
    · simp [emittedMsgs, hr] at hm

theorem emittedAll_role (events : List AgentEvent) :
    ∀ m ∈ emittedAll events, m.role = "model" := by
  induction events with
  | nil => simp [emittedAll]
  | cons e rest ih =>
    intro m hm
    rw [emittedAll, List.mem_append] at hm
    rcases hm with hm | hm
    · exact emittedMsgs_role e m hm
    · exact ih m hm

/-- A stream with no truthy error code is consumed to exhaustion and the
loop is the fold of `processEvent`. -/
theorem runLoop_no_error (events : List AgentEvent) (st : LoopState)
    (h : ∀ e ∈ events, carriesError e = false) :
    runLoop st events = (events.foldl processEvent st, []) := by
  induction events generalizing st with
  | nil => rfl
  | cons e rest ih =>
    rw [runLoop, h e (List.mem_cons_self e rest), if_neg (by simp)]
    exact ih (processEvent st e) (fun x hx => h x (List.mem_cons_of_mem e hx))

/-- Fail-fast: an error event at position `k` stops consumption there,
appends the single apology, and leaves the suffix unconsumed. -/
theorem runLoop_error_break (pre : List AgentEvent) (e : AgentEvent)
    (rest : List AgentEvent) (st : LoopState)
    (hpre : ∀ x ∈ pre, carriesError x = false) (he : carriesError e = true) :
    runLoop st (pre ++ e :: rest) =
      ({ pre.foldl processEvent st with
          parts := (pre.foldl processEvent st).parts ++ [apologyMsg (e.error_code.getD "")]
          agentError := e.error_code }, rest) := by
  induction pre generalizing st with
  | nil =>
    simp only [List.nil_append, List.foldl_nil]
    rw [runLoop, if_pos (by simp [he])]
  | cons x xs ih =>
    have hx : carriesError x = false := hpre x (List.mem_cons_self x xs)
    rw [List.cons_append, runLoop, hx, if_neg (by simp)]
    exact ih (processEvent st x) (fun y hy => hpre y (List.mem_cons_of_mem x hy))

/-! ## Concrete sample inputs used in claim instances -/

/-- A model event whose single part carries the SQL tool call `SELECT 1`. -/
def sqlSelectEvent : AgentEvent :=
  ⟨none, some ⟨"model", [⟨none, some ⟨some "SELECT 1"⟩⟩]⟩⟩

/-- An event carrying the error code `E1`. -/
def errE1Event : AgentEvent := ⟨some "E1", none⟩

/-- A model event carrying only the text "Which region?". -/
def whichRegionEvent : AgentEvent :=
  ⟨none, some ⟨"model", [⟨some "Which region?", none⟩]⟩⟩

/-! ## Claims -/

/-- Claim C1: the spec demands that a chat request missing any of user_id,
session_id or message.message is rejected with a 400-class error and zero
agent calls.  The code violates this: `sanitize_for_log(None)` stringifies
the missing value to "None", which passes the truthiness validation, so the
handler invokes `run_async` with the literal strings "None" and answers 200.
This theorem evaluates the embedded handler at the failing input (a body with
all three fields absent, agent yielding an empty stream). -/
theorem c1_missing_fields_not_rejected :
    (chat_handler ⟨none, none, none⟩ [] none).status = 200 ∧
    (chat_handler ⟨none, none, none⟩ [] none).agentCalls =
      [⟨"None", "None", "None"⟩] := by
  constructor <;> rfl

/-- Claim C3: a processed model-content event appends exactly one "model" message
with the fenced SQL when a SQL string was captured in the event, otherwise
exactly one "model" message with the accumulated raw text when that text is
non-empty, and nothing when the event yields neither; and the concrete
one-event stream carrying SQL `SELECT 1` produces exactly the single message
with content "```sql\nSELECT 1\n```". -/
theorem c3_model_event_emission (st : LoopState) (e : AgentEvent) (c : EventContent)
    (hc : e.content = some c) (hrole : c.role = "model") :
    (processEvent st e).parts =
      st.parts ++
        (match lastSql (partSqls c.parts) none with
         | some q => [⟨"model", formattedSql q⟩]
         | none => if partsText c.parts ≠ "" then [⟨"model", partsText c.parts⟩] else []) ∧
    (runLoop initLoopState [sqlSelectEvent]).1.parts =
      [⟨"model", "```sql\nSELECT 1\n```"⟩] := by
  constructor
  · rw [(processEvent_char st e).1]
    congr 1
    rw [emittedMsgs, hc]
    simp only [hrole, if_pos, foldl_stepPart, string_empty_append]
  · rfl

theorem c3_model_event_emission_witness :
    (processEvent initLoopState sqlSelectEvent).parts =
      initLoopState.parts ++
        (match lastSql (partSqls (⟨"model", [⟨none, some ⟨some "SELECT 1"⟩⟩]⟩ :
            EventContent).parts) none with
         | some q => [⟨"model", formattedSql q⟩]
         | none =>
           if partsText (⟨"model", [⟨none, some ⟨some "SELECT 1"⟩⟩]⟩ :
               EventContent).parts ≠ "" then
             [⟨"model", partsText (⟨"model", [⟨none, some ⟨some "SELECT 1"⟩⟩]⟩ :
               EventContent).parts⟩]
           else []) ∧
    (runLoop initLoopState [sqlSelectEvent]).1.parts =
      [⟨"model", "```sql\nSELECT 1\n```"⟩] :=
  c3_model_event_emission initLoopState sqlSelectEvent
    ⟨"model", [⟨none, some ⟨some "SELECT 1"⟩⟩]⟩ rfl rfl

/-- Claim C4: when the `k`-th event of the stream carries a (truthy) error code,
the loop output is the messages of the first `k-1` events followed by exactly
one apology message embedding that code (all earlier messages having role
"model", the apology being the only "assistant" entry), the remaining stream
is left unconsumed, and no output is derived from the later events. -/
theorem c4_error_fail_fast (pre rest : List AgentEvent) (e : AgentEvent) (code : String)
    (hpre : ∀ x ∈ pre, carriesError x = false)
    (hcode : e.error_code = some code) (hne : code ≠ "") :
    (runLoop initLoopState (pre ++ e :: rest)).1.parts =
      emittedAll pre ++ [apologyMsg code] ∧
    (runLoop initLoopState (pre ++ e :: rest)).2 = rest ∧
    (∀ m ∈ emittedAll pre, m.role = "model") := by
  have he : carriesError e = true := by simp [carriesError, truthyStr, hcode, hne]
  rw [runLoop_error_break pre e rest initLoopState hpre he]
  obtain ⟨h1, -, -, -⟩ := foldl_processEvent_char pre initLoopState
  refine ⟨?_, rfl, emittedAll_role pre⟩
  show (pre.foldl processEvent initLoopState).parts ++ [apologyMsg (e.error_code.getD "")] =
    emittedAll pre ++ [apologyMsg code]
  rw [h1, hcode]
  simp [initLoopState]

theorem c4_error_fail_fast_witness :
    (runLoop initLoopState ([] ++ errE1Event :: [sqlSelectEvent])).1.parts =
      emittedAll [] ++ [apologyMsg "E1"] ∧
    (runLoop initLoopState ([] ++ errE1Event :: [sqlSelectEvent])).2 =
      [sqlSelectEvent] ∧
    (∀ m ∈ emittedAll [], m.role = "model") :=
  c4_error_fail_fast [] [sqlSelectEvent] errE1Event "E1" (by simp) rfl (by decide)

/-! ## Characterisation of chat_handler on its three paths -/

/-- Success path: validation passes, no error event, no exception. -/
theorem chat_handler_success (req : ChatRequest) (events : List AgentEvent)
    (h1 : sanitizeField req.user_id ≠ "") (h2 : sanitizeField req.session_id ≠ "")
    (h3 : sanitizeField req.message ≠ "")
    (hnoerr : ∀ e ∈ events, carriesError e = false) :
    chat_handler req events none =
      { status := 200
        body := ⟨some (sanitizeField req.session_id), some (emittedAll events), none⟩
        agentCalls := [⟨sanitizeField req.user_id, sanitizeField req.session_id,
          sanitizeField req.message⟩]
        unconsumed := []
        clarification_asked :=
          some (decide (lastD (streamSqls events) "N/A" = "N/A" ∧ streamText events ≠ ""))
        server_error := none } := by
  obtain ⟨hp, ht, hg, hae⟩ := foldl_processEvent_char events initLoopState
  have hloop := runLoop_no_error events initLoopState hnoerr
  simp only [chat_handler, hloop, decide_eq_false h1, decide_eq_false h2,
    decide_eq_false h3, Bool.false_or, Bool.or_self, Bool.false_eq_true, if_false]
  have hparts : (events.foldl processEvent initLoopState).parts = emittedAll events := by
    rw [hp]; rfl
  have htext : (events.foldl processEvent initLoopState).llmText = streamText events := by
    rw [ht]
    exact string_empty_append _
  have hgen : (events.foldl processEvent initLoopState).generatedSql =
      lastD (streamSqls events) "N/A" := by
    rw [hg]; rfl
  simp [hparts, htext, hgen]

/-- Exception path: validation passes, the whole stream is consumed without
an error event, and the generator then raises with message `s`. -/
theorem chat_handler_exception (req : ChatRequest) (events : List AgentEvent) (s : String)
    (h1 : sanitizeField req.user_id ≠ "") (h2 : sanitizeField req.session_id ≠ "")
    (h3 : sanitizeField req.message ≠ "")
    (hnoerr : ∀ e ∈ events, carriesError e = false) :
    chat_handler req events (some s) =
      { status := 500
        body := ⟨some (sanitizeField req.session_id), some [], some "Internal server error"⟩
        agentCalls := [⟨sanitizeField req.user_id, sanitizeField req.session_id,
          sanitizeField req.message⟩]
        unconsumed := []
        clarification_asked := none
        server_error := some s } := by
  obtain ⟨-, -, -, hae⟩ := foldl_processEvent_char events initLoopState
  have hloop := runLoop_no_error events initLoopState hnoerr
  simp only [chat_handler, hloop]
  simp only [decide_eq_false h1, decide_eq_false h2, decide_eq_false h3, Bool.false_or,
    Bool.or_self, Bool.false_eq_true, if_false]
  have : (events.foldl processEvent initLoopState).agentError = none := by
    rw [hae]; rfl
  simp [this]

/-- In every path, `run_async` is invoked at most once, and when invoked its
arguments are exactly the three sanitized fields. -/
theorem chat_handler_calls (req : ChatRequest) (events : List AgentEvent)
    (exc : Option String) :
    ((chat_handler req events exc).agentCalls = [] ∧
      (chat_handler req events exc).status = 400) ∨
    (chat_handler req events exc).agentCalls =
      [⟨sanitizeField req.user_id, sanitizeField req.session_id,
        sanitizeField req.message⟩] := by
  by_cases h : (decide (sanitizeField req.user_id = "") ||
      decide (sanitizeField req.session_id = "") ||
      decide (sanitizeField req.message = "")) = true
  · left
    simp only [chat_handler]
    rw [if_pos h]
    exact ⟨rfl, rfl⟩
  · right
    simp only [chat_handler]
    rw [if_neg h]
    split <;> first
      | rfl
      | (split <;> rfl)

theorem list_map_eq_self {α : Type} (f : α → α) (l : List α) (h : l.map f = l) :
    ∀ x ∈ l, f x = x := by
  induction l with
  | nil => intro x hx; cases hx
  | cons a rest ih =>
    rw [List.map_cons, List.cons.injEq] at h
    intro x hx
    rcases List.mem_cons.1 hx with rfl | hx
    · exact h.1
    · exact ih h.2 x hx

/-- A model event that carries both text "t" and a tool call whose
`sql_query` argument is the literal string "N/A" — colliding with the
defaultdict sentinel of `kpi_data["generated_sql"]`. -/
def naSqlEvent : AgentEvent :=
  ⟨none, some ⟨"model", [⟨some "t", some ⟨some "N/A"⟩⟩]⟩⟩

/-- Claim C5 counterexample: a SQL string *was* captured in the exchange (the
captured-SQL list of the stream is non-empty), yet the derived clarification flag
is true, because the captured SQL is literally the sentinel string "N/A" and
line 236 compares `kpi_data["generated_sql"]` against that sentinel.  The
claim says the flag is false in every case where SQL was captured. -/
theorem c5_sentinel_counterexample :
    streamSqls [naSqlEvent] = ["N/A"] ∧
    (chat_handler ⟨some "u", some "s", some "hi"⟩ [naSqlEvent]
      none).clarification_asked = some true :=
  ⟨rfl, rfl⟩

/-- Claim C5, amended: for every completed chat exchange the clarification flag is
true exactly when the *last captured SQL, with default sentinel "N/A"* equals
"N/A" (i.e. no SQL was captured, or the most recently captured SQL is the
literal string "N/A") and some assistant text was accumulated; and the flag
is not part of the client response, whose body consists solely of the session
id and the message list. -/
theorem c5_clarification_flag (req : ChatRequest) (events : List AgentEvent)
    (h1 : sanitizeField req.user_id ≠ "") (h2 : sanitizeField req.session_id ≠ "")
    (h3 : sanitizeField req.message ≠ "")
    (hnoerr : ∀ e ∈ events, carriesError e = false) :
    (chat_handler req events none).clarification_asked =
      some (decide (lastD (streamSqls events) "N/A" = "N/A" ∧ streamText events ≠ "")) ∧
    (chat_handler req events none).body =
      ⟨some (sanitizeField req.session_id), some (emittedAll events), none⟩ ∧
    (chat_handler req events none).status = 200 := by
  rw [chat_handler_success req events h1 h2 h3 hnoerr]
  exact ⟨rfl, rfl, rfl⟩

theorem c5_clarification_flag_witness :
    (chat_handler ⟨some "u", some "s", some "hi"⟩ [whichRegionEvent]
        none).clarification_asked =
      some (decide (lastD (streamSqls [whichRegionEvent]) "N/A" = "N/A" ∧
        streamText [whichRegionEvent] ≠ "")) ∧
    (chat_handler ⟨some "u", some "s", some "hi"⟩ [whichRegionEvent] none).body =
      ⟨some (sanitizeField (some "s")), some (emittedAll [whichRegionEvent]), none⟩ ∧
    (chat_handler ⟨some "u", some "s", some "hi"⟩ [whichRegionEvent] none).status = 200 :=
  c5_clarification_flag ⟨some "u", some "s", some "hi"⟩ [whichRegionEvent]
    (by decide) (by decide) (by decide) (by decide)

/-- Claim C6: every exception raised during processing after validation is caught
and surfaced as a 500 whose client-visible body carries only the session id,
an empty messages list and the generic text "Internal server error"; the body
is independent of the exception message, so the original exception text
never reaches the client. -/
theorem c6_internal_error_opaque (req : ChatRequest) (events : List AgentEvent)
    (s : String)
    (h1 : sanitizeField req.user_id ≠ "") (h2 : sanitizeField req.session_id ≠ "")
    (h3 : sanitizeField req.message ≠ "")
    (hnoerr : ∀ e ∈ events, carriesError e = false) :
    (chat_handler req events (some s)).status = 500 ∧
    (chat_handler req events (some s)).body =
      ⟨some (sanitizeField req.session_id), some [], some "Internal server error"⟩ ∧
    (∀ s2 : String,
      (chat_handler req events (some s)).body = (chat_handler req events (some s2)).body) := by
  have key := fun s' => chat_handler_exception req events s' h1 h2 h3 hnoerr
  refine ⟨?_, ?_, ?_⟩
  · rw [key s]
  · rw [key s]
  · intro s2
    rw [key s, key s2]

theorem c6_internal_error_opaque_witness :
    (chat_handler ⟨some "u", some "s", some "m"⟩ [] (some "boom")).status = 500 ∧
    (chat_handler ⟨some "u", some "s", some "m"⟩ [] (some "boom")).body =
      ⟨some (sanitizeField (some "s")), some [], some "Internal server error"⟩ ∧
    (∀ s2 : String,
      (chat_handler ⟨some "u", some "s", some "m"⟩ [] (some "boom")).body =
        (chat_handler ⟨some "u", some "s", some "m"⟩ [] (some s2)).body) :=
  c6_internal_error_opaque ⟨some "u", some "s", some "m"⟩ [] "boom"
    (by decide) (by decide) (by decide) (by decide)

/-- Claim C10: whenever the chat handler invokes the agent runtime, the submitted
arguments are exactly the sanitized forms of the client user_id, session_id
and message (every character in U+0000..U+001F and U+007F replaced by '?');
the sanitized message contains no such control character, and a raw message
containing one is never forwarded verbatim. -/
theorem c10_sanitized_forwarding (req : ChatRequest) (events : List AgentEvent)
    (exc : Option String) (u sid m : String)
    (hu : req.user_id = some u) (hs : req.session_id = some sid)
    (hm : req.message = some m)
    (hcall : (chat_handler req events exc).agentCalls ≠ []) :
    (chat_handler req events exc).agentCalls =
      [⟨sanitize_for_log u, sanitize_for_log sid, sanitize_for_log m⟩] ∧
    (∀ c ∈ (sanitize_for_log m).data, isStrippedChar c = false) ∧
    ((∃ c ∈ m.data, isStrippedChar c = true) → sanitize_for_log m ≠ m) := by
  refine ⟨?_, ?_, ?_⟩
  · rcases chat_handler_calls req events exc with ⟨hnil, -⟩ | hone
    · exact absurd hnil hcall
    · rw [hone, hu, hs, hm]
      rfl
  · intro c hc
    have hmem : c ∈ m.data.map (fun c => if isStrippedChar c then '?' else c) := hc
    obtain ⟨x, hx, rfl⟩ := List.mem_map.1 hmem
    by_cases hsx : isStrippedChar x = true
    · simp only [hsx, if_true]
      decide
    · simp only [Bool.not_eq_true] at hsx
      simp [hsx]
  · rintro ⟨c, hc, hstrip⟩ heq
    have hdata : sanitizeChars m.data = m.data := congrArg String.data heq
    have hfix := list_map_eq_self _ _ hdata c hc
    rw [hstrip] at hfix
    simp only [if_true] at hfix
    rw [← hfix] at hstrip
    exact absurd hstrip (by decide)

theorem c10_sanitized_forwarding_witness :
    (chat_handler ⟨some "u", some "s", some "a\nb"⟩ [] none).agentCalls =
      [⟨sanitize_for_log "u", sanitize_for_log "s", sanitize_for_log "a\nb"⟩] ∧
    (∀ c ∈ (sanitize_for_log "a\nb").data, isStrippedChar c = false) ∧
    ((∃ c ∈ ("a\nb" : String).data, isStrippedChar c = true) →
      sanitize_for_log "a\nb" ≠ "a\nb") :=
  c10_sanitized_forwarding ⟨some "u", some "s", some "a\nb"⟩ [] none
    "u" "s" "a\nb" rfl rfl rfl (by decide)

/-! ## Lemmas for the code-file route -/

theorem isPrefixOf_append {α : Type} [BEq α] [LawfulBEq α] (l m : List α) :
    l.isPrefixOf (l ++ m) = true := by
  induction l with
  | nil => simp [List.isPrefixOf]
  | cons a rest ih => simp [List.isPrefixOf, ih]

theorem startswith_join (x : String) :
    startswith (allowed_dir ++ "/" ++ x) allowed_dir = true := by
  rw [startswith, String.data_append, String.data_append, List.append_assoc]
  exact isPrefixOf_append _ _

theorem lookup_mem_pair {β : Type} (l : List (String × β)) (k : String) (v : β)
    (h : List.lookup k l = some v) : (k, v) ∈ l := by
  induction l with
  | nil => cases h
  | cons e rest ih =>
    obtain ⟨k0, v0⟩ := e
    rw [List.lookup] at h
    cases hk : (k == k0) with
    | true =>
      rw [hk] at h
      injection h with h
      subst h
      have : k = k0 := eq_of_beq hk
      subst this
      exact List.mem_cons_self _ _
    | false =>
      rw [hk] at h
      exact List.mem_cons_of_mem _ (ih h)

/-- Claim C2 counterexample: the filepath ".." escapes the sandboxed directory, yet
the route answers 500 (opening the parent directory raises
`IsADirectoryError`, caught by the generic handler), not a 400-class error. -/
theorem c2_escaping_path_counterexample :
    escapesSandbox ".." = true ∧
    get_code_file (some "..") [] = (500, ⟨none, some "Internal server error"⟩) := by
  exact ⟨by decide, by decide⟩

/-- Claim C2, amended: the route never returns the contents of a file outside the
sandboxed data_agent directory — any 200 body carries the content of a file
stored inside it, keyed by the basename of the (sanitized) filepath.  However,
an escaping filepath is not guaranteed a 400-class response: the
"Invalid filepath" 400 branch is unreachable (the joined path always starts
with the sandbox directory), and the status is one of 200 (basename names a
sandboxed file), 400 (only for an empty filepath), 404 or 500. -/
theorem c2_sandbox_containment (fp : Option String) (files : List (String × String)) :
    (∀ cct, (get_code_file fp files).2.content = some cct →
      (get_code_file fp files).1 = 200 ∧ (basename (sanitizeField fp), cct) ∈ files) ∧
    (get_code_file fp files).2.error ≠ some "Invalid filepath" ∧
    ((get_code_file fp files).1 = 200 ∨ (get_code_file fp files).1 = 400 ∨
      (get_code_file fp files).1 = 404 ∨ (get_code_file fp files).1 = 500) := by
  by_cases h0 : sanitizeField fp = ""
  · have hgc : get_code_file fp files = (400, ⟨none, some "Filepath is required"⟩) := by
      simp only [get_code_file, if_pos h0]
    rw [hgc]
    exact ⟨fun cct hc => Option.noConfusion hc,
      fun hcon => absurd (Option.some.inj hcon) (by decide),
      Or.inr (Or.inl rfl)⟩
  · have hsw := startswith_join (basename (sanitizeField fp))
    have hgc : get_code_file fp files =
        (match openInSandbox files (basename (sanitizeField fp)) with
         | .opened c => (200, ⟨some c, none⟩)
         | .fileNotFound => (404, ⟨none, some "File not found"⟩)
         | .otherOSError => (500, ⟨none, some "Internal server error"⟩)) := by
      simp only [get_code_file, if_neg h0]
      exact if_neg (fun hc => hc hsw)
    cases hopen : openInSandbox files (basename (sanitizeField fp)) with
    | opened cct0 =>
      have hlk : List.lookup (basename (sanitizeField fp)) files = some cct0 := by
        rw [openInSandbox] at hopen
        split at hopen
        · cases hopen
        · cases hlk2 : List.lookup (basename (sanitizeField fp)) files with
          | some c => rw [hlk2] at hopen; injection hopen with h; rw [h]
          | none => rw [hlk2] at hopen; cases hopen
      rw [hgc, hopen]
      refine ⟨?_, fun hcon => Option.noConfusion hcon, Or.inl rfl⟩
      intro cct hc
      have hinj : cct0 = cct := Option.some.inj hc
      subst hinj
      exact ⟨rfl, lookup_mem_pair files _ _ hlk⟩
    | fileNotFound =>
      rw [hgc, hopen]
      exact ⟨fun cct hc => Option.noConfusion hc,
        fun hcon => absurd (Option.some.inj hcon) (by decide),
        Or.inr (Or.inr (Or.inl rfl))⟩
    | otherOSError =>
      rw [hgc, hopen]
      exact ⟨fun cct hc => Option.noConfusion hc,
        fun hcon => absurd (Option.some.inj hcon) (by decide),
        Or.inr (Or.inr (Or.inr rfl))⟩

theorem c2_sandbox_containment_witness :
    ((get_code_file (some "utils.py") [("utils.py", "U")]).1 = 200 ∧
      (basename (sanitizeField (some "utils.py")), "U") ∈ [("utils.py", "U")]) ∧
    (get_code_file (some "utils.py") [("utils.py", "U")]).2.error ≠
      some "Invalid filepath" :=
  ⟨(c2_sandbox_containment (some "utils.py") [("utils.py", "U")]).1 "U" (by decide),
    (c2_sandbox_containment (some "utils.py") [("utils.py", "U")]).2.1⟩

/-! ## Lemmas for the response cache -/

theorem dictLookup_store_self {α : Type} (c : CacheMap α) (k : String) (v : α × ℚ) :
    dictLookup (dictStore c k v) k = some v := by
  induction c with
  | nil => simp [dictStore, dictLookup]
  | cons e rest ih =>
    obtain ⟨k0, v0, t0⟩ := e
    by_cases h : k0 = k
    · simp [dictStore, dictLookup, h]
    · simp [dictStore, dictLookup, h, ih]

theorem dictLookup_store_other {α : Type} (c : CacheMap α) (k k' : String) (v : α × ℚ)
    (h : k' ≠ k) : dictLookup (dictStore c k v) k' = dictLookup c k' := by
  have hne : ¬ (k = k') := fun hc => h hc.symm
  induction c with
  | nil =>
    simp only [dictStore, dictLookup]
    rw [if_neg hne]
  | cons e rest ih =>
    obtain ⟨k0, v0, t0⟩ := e
    by_cases hk : k0 = k
    · subst hk
      simp only [dictStore, if_pos rfl, dictLookup]
      rw [if_neg hne, if_neg hne]
    · simp only [dictStore, if_neg hk, dictLookup]
      by_cases hk' : k0 = k'
      · rw [if_pos hk', if_pos hk']
      · rw [if_neg hk', if_neg hk', ih]

/-- Claim C7: the URL-keyed cache with its 3600-second timeout, wrapped around the
table-listing handler.  A lookup hit younger than 3600 seconds replays the
stored result with zero handler invocations and leaves the cache untouched; a
hit at least 3600 seconds old re-invokes the handler exactly once and
overwrites the entry with the fresh result and timestamp; a miss populates
the entry; all other entries are preserved (no eviction). -/
theorem c7_cache_semantics (gw : TableGateway) (c : CacheMap (Nat × TablesBody))
    (url : String) (now : ℚ) :
    (∀ r ts, dictLookup c url = some (r, ts) → now - ts < 3600 →
      cachedCall 3600 (fun _ => list_tables gw) c url now = ⟨r, c, 0⟩) ∧
    (∀ r ts, dictLookup c url = some (r, ts) → 3600 ≤ now - ts →
      cachedCall 3600 (fun _ => list_tables gw) c url now =
        ⟨list_tables gw, dictStore c url (list_tables gw, now), 1⟩ ∧
      dictLookup (dictStore c url (list_tables gw, now)) url =
        some (list_tables gw, now)) ∧
    (dictLookup c url = none →
      cachedCall 3600 (fun _ => list_tables gw) c url now =
        ⟨list_tables gw, dictStore c url (list_tables gw, now), 1⟩) ∧
    (∀ k, k ≠ url →
      dictLookup (cachedCall 3600 (fun _ => list_tables gw) c url now).cacheAfter k =
        dictLookup c k) ∧
    (∀ k, (dictLookup c k).isSome = true →
      (dictLookup (cachedCall 3600 (fun _ => list_tables gw) c url now).cacheAfter
        k).isSome = true) := by
  refine ⟨?_, ?_, ?_, ?_, ?_⟩
  · intro r ts hl ht
    simp [cachedCall, hl, ht]
  · intro r ts hl ht
    have hlt : ¬ (now - ts < 3600) := not_lt.2 ht
    exact ⟨by simp [cachedCall, hl, hlt], dictLookup_store_self c url _⟩
  · intro hl
    simp [cachedCall, hl]
  · intro k hk
    rw [cachedCall]
    cases hl : dictLookup c url with
    | some rt =>
      obtain ⟨r, ts⟩ := rt
      by_cases ht : now - ts < 3600
      · simp [ht]
      · simp [ht, dictLookup_store_other c url k _ hk]
    | none => simp [dictLookup_store_other c url k _ hk]
  · intro k hk
    by_cases hke : k = url
    · subst hke
      rw [cachedCall]
      cases hl : dictLookup c k with
      | some rt =>
        obtain ⟨r, ts⟩ := rt
        by_cases ht : now - ts < 3600
        · simp [ht, hl]
        · simp [ht, dictLookup_store_self c k _]
      | none => simp [dictLookup_store_self c k _]
    · rw [cachedCall]
      cases hl : dictLookup c url with
      | some rt =>
        obtain ⟨r, ts⟩ := rt
        by_cases ht : now - ts < 3600
        · simpa [ht] using hk
        · simpa [ht, dictLookup_store_other c url k _ hke] using hk
      | none => simpa [dictLookup_store_other c url k _ hke] using hk

/-- A concrete healthy gateway: one table "t1" with 5 rows, 3 columns. -/
def gwW : TableGateway := ⟨.ok ["t1"], fun _ => .ok 5, .ok 3⟩

def tablesBodyW : TablesBody := ⟨some ["t1"], some 1, some 3, some 5, none⟩

def cacheW : CacheMap (Nat × TablesBody) := [("u", (200, tablesBodyW), 0)]

theorem except_bind_ok {ε α β : Type} (a : α) (f : α → Except ε β) :
    (Except.ok a >>= f : Except ε β) = f a := rfl

theorem except_bind_error {ε α β : Type} (e : ε) (f : α → Except ε β) :
    (Except.error e >>= f : Except ε β) = Except.error e := rfl

theorem c7_cache_semantics_witness :
    cachedCall 3600 (fun _ => list_tables gwW) cacheW "u" 10 =
      ⟨(200, tablesBodyW), cacheW, 0⟩ ∧
    (cachedCall 3600 (fun _ => list_tables gwW) cacheW "u" 4000 =
        ⟨list_tables gwW, dictStore cacheW "u" (list_tables gwW, 4000), 1⟩ ∧
      dictLookup (dictStore cacheW "u" (list_tables gwW, 4000)) "u" =
        some (list_tables gwW, 4000)) ∧
    dictLookup (cachedCall 3600 (fun _ => list_tables gwW) cacheW "u" 10).cacheAfter "v" =
      dictLookup cacheW "v" :=
  ⟨(c7_cache_semantics gwW cacheW "u" 10).1 (200, tablesBodyW) 0 rfl (by norm_num),
    (c7_cache_semantics gwW cacheW "u" 4000).2.1 (200, tablesBodyW) 0 rfl (by norm_num),
    (c7_cache_semantics gwW cacheW "u" 10).2.2.2.1 "v" (by decide)⟩

/-- Claim C9: an error outcome of the table-listing handler (here: the DDL fetch
raising) is stored in the response cache exactly like a success and replayed
unchanged, without re-invoking the handler, for any identical-URL request
less than 3600 seconds later. -/
theorem c9_error_response_cached (gw : TableGateway) (e url : String) (now tlater : ℚ)
    (hgw : gw.ddl_table_names = .error e) (ht : tlater - now < 3600) :
    (cachedCall 3600 (fun _ => list_tables gw) [] url now).result =
      (500, ⟨none, none, none, none, some "Internal server error"⟩) ∧
    (cachedCall 3600 (fun _ => list_tables gw) [] url now).handlerCalls = 1 ∧
    dictLookup (cachedCall 3600 (fun _ => list_tables gw) [] url now).cacheAfter url =
      some ((500, ⟨none, none, none, none, some "Internal server error"⟩), now) ∧
    cachedCall 3600 (fun _ => list_tables gw)
        (cachedCall 3600 (fun _ => list_tables gw) [] url now).cacheAfter url tlater =
      ⟨(500, ⟨none, none, none, none, some "Internal server error"⟩),
        (cachedCall 3600 (fun _ => list_tables gw) [] url now).cacheAfter, 0⟩ := by
  have hlt : list_tables gw =
      (500, ⟨none, none, none, none, some "Internal server error"⟩) := by
    simp only [list_tables, hgw, except_bind_error]
  have hfirst : cachedCall 3600 (fun _ => list_tables gw) [] url now =
      ⟨list_tables gw, dictStore [] url (list_tables gw, now), 1⟩ := rfl
  have hlk : dictLookup (dictStore [] url (list_tables gw, now)) url =
      some (list_tables gw, now) := dictLookup_store_self _ _ _
  refine ⟨?_, ?_, ?_, ?_⟩
  · rw [hfirst]
    exact hlt
  · rw [hfirst]
  · rw [hfirst]
    show dictLookup (dictStore [] url (list_tables gw, now)) url = _
    rw [hlk, hlt]
  · rw [hfirst]
    show cachedCall 3600 (fun _ => list_tables gw)
        (dictStore [] url (list_tables gw, now)) url tlater = _
    simp only [cachedCall, hlk]
    rw [if_pos ht, hlt]

theorem c9_error_response_cached_witness :
    (cachedCall 3600 (fun _ => list_tables ⟨.error "boom", fun _ => .ok 0, .ok 0⟩)
        [] "u" 0).result =
      (500, ⟨none, none, none, none, some "Internal server error"⟩) ∧
    (cachedCall 3600 (fun _ => list_tables ⟨.error "boom", fun _ => .ok 0, .ok 0⟩)
        [] "u" 0).handlerCalls = 1 ∧
    dictLookup (cachedCall 3600 (fun _ => list_tables ⟨.error "boom", fun _ => .ok 0, .ok 0⟩)
        [] "u" 0).cacheAfter "u" =
      some ((500, ⟨none, none, none, none, some "Internal server error"⟩), 0) ∧
    cachedCall 3600 (fun _ => list_tables ⟨.error "boom", fun _ => .ok 0, .ok 0⟩)
        (cachedCall 3600 (fun _ => list_tables ⟨.error "boom", fun _ => .ok 0, .ok 0⟩)
          [] "u" 0).cacheAfter "u" 1 =
      ⟨(500, ⟨none, none, none, none, some "Internal server error"⟩),
        (cachedCall 3600 (fun _ => list_tables ⟨.error "boom", fun _ => .ok 0, .ok 0⟩)
          [] "u" 0).cacheAfter, 0⟩ :=
  c9_error_response_cached ⟨.error "boom", fun _ => .ok 0, .ok 0⟩ "boom" "u" 0 1
    rfl (by norm_num)

/-! ## Lemmas for startup prompt assembly -/

theorem buildRest_ok_steps (env : StartupSteps) (md pf sm : List String) (p : String)
    (h : buildRest env md pf sm = .ok p) :
    (∃ mds, env.dumps_metadata md = .ok mds) ∧
    (∃ pfs, env.dumps_profiles pf = .ok pfs) ∧
    (∃ sms, env.dumps_samples sm = .ok sms) ∧
    (∃ y, env.load_instructions_yaml = .ok y) ∧
    (∃ t a b c2, env.format_template t a b c2 = .ok p) ∧
    env.log_startup_kpis = .ok () := by
  cases h1 : env.dumps_metadata md with
  | error e1 =>
    simp only [buildRest, h1, except_bind_error] at h
    exact Except.noConfusion h
  | ok mds =>
  cases h2 : env.dumps_profiles pf with
  | error e2 =>
    simp only [buildRest, h1, h2, except_bind_ok, except_bind_error] at h
    exact Except.noConfusion h
  | ok pfs =>
  cases h3 : env.dumps_samples sm with
  | error e3 =>
    simp only [buildRest, h1, h2, h3, except_bind_ok, except_bind_error] at h
    exact Except.noConfusion h
  | ok sms =>
  cases h4 : env.load_instructions_yaml with
  | error e4 =>
    simp only [buildRest, h1, h2, h3, h4, except_bind_ok, except_bind_error] at h
    exact Except.noConfusion h
  | ok y =>
  cases h5 : env.format_template (String.intercalate "\n---\n" y) mds pfs sms with
  | error e5 =>
    simp only [buildRest, h1, h2, h3, h4, h5, except_bind_ok, except_bind_error] at h
    exact Except.noConfusion h
  | ok fp =>
  cases h6 : env.log_startup_kpis with
  | error e6 =>
    simp only [buildRest, h1, h2, h3, h4, h5, h6, except_bind_ok, except_bind_error] at h
    exact Except.noConfusion h
  | ok u =>
    simp only [buildRest, h1, h2, h3, h4, h5, h6, except_bind_ok] at h
    have hfp : fp = p := by
      cases hpure : (pure fp : Except String String) with
      | ok v =>
        rw [hpure] at h
        have : fp = v := Except.ok.inj hpure.symm ▸ rfl
        exact this.trans (Except.ok.inj h)
      | error e => exact absurd hpure (by simp [pure, Except.pure])
    subst hfp
    cases u
    exact ⟨⟨mds, rfl⟩, ⟨pfs, rfl⟩, ⟨sms, rfl⟩, ⟨y, rfl⟩,
      ⟨String.intercalate "\n---\n" y, mds, pfs, sms, h5⟩, rfl⟩

theorem except_pure {ε α : Type} (a : α) : (pure a : Except ε α) = Except.ok a := rfl

/-- Claim C8: startup prompt assembly is total — it either yields the assembled
prompt or the empty string, never an exception; any failure of the try-block
yields the empty cached prompt; a successful (non-empty-able) build certifies
that every fallible step (metadata fetch, profile fetch, the fallback sample
fetch when profiles are empty, the three JSON serializations, the template
load, the interpolation, the KPI logging) succeeded, so a failure of any of
them forces the empty prompt; and a failing best-effort debug save never
changes the result (it neither aborts assembly nor empties the prompt). -/
theorem c8_startup_prompt_resilience (env : StartupSteps) :
    (_build_master_instructions env = "" ∨
      ∃ p, buildAttempt env = .ok p ∧ _build_master_instructions env = p) ∧
    (∀ e, buildAttempt env = .error e → _build_master_instructions env = "") ∧
    (∀ p, buildAttempt env = .ok p →
      (∃ md, env.fetch_table_entry_metadata = .ok md) ∧
      (∃ pf, env.fetch_bigquery_data_profiles = .ok pf) ∧
      (env.fetch_bigquery_data_profiles = .ok [] →
        ∃ sm, env.fetch_sample_data_for_tables = .ok sm) ∧
      (∃ md mds, env.dumps_metadata md = .ok mds) ∧
      (∃ pf pfs, env.dumps_profiles pf = .ok pfs) ∧
      (∃ sm sms, env.dumps_samples sm = .ok sms) ∧
      (∃ y, env.load_instructions_yaml = .ok y) ∧
      (∃ t a b c2, env.format_template t a b c2 = .ok p) ∧
      env.log_startup_kpis = .ok ()) ∧
    (∀ s, _build_master_instructions { env with save_debug := .error s } =
      _build_master_instructions env) := by
  refine ⟨?_, ?_, ?_, ?_⟩
  · cases hb : buildAttempt env with
    | ok p => exact Or.inr ⟨p, rfl, by simp only [_build_master_instructions, hb]⟩
    | error e => exact Or.inl (by simp only [_build_master_instructions, hb])
  · intro e hb
    simp only [_build_master_instructions, hb]
  · intro p hp
    cases h1 : env.fetch_table_entry_metadata with
    | error e1 =>
      simp only [buildAttempt, h1, except_bind_error] at hp
      exact Except.noConfusion hp
    | ok md =>
    cases h2 : env.fetch_bigquery_data_profiles with
    | error e2 =>
      simp only [buildAttempt, h1, h2, except_bind_ok, except_bind_error] at hp
      exact Except.noConfusion hp
    | ok pf =>
    cases pf with
    | nil =>
      cases h3 : env.fetch_sample_data_for_tables with
      | error e3 =>
        simp only [buildAttempt, h1, h2, h3, except_bind_ok, except_bind_error,
          List.isEmpty_nil, if_true] at hp
        exact Except.noConfusion hp
      | ok sm =>
        simp only [buildAttempt, h1, h2, h3, except_bind_ok, List.isEmpty_nil, if_true] at hp
        obtain ⟨⟨mds, hd1⟩, ⟨pfs, hd2⟩, ⟨sms, hd3⟩, ⟨y, hy⟩, hfmt, hlog⟩ :=
          buildRest_ok_steps env md [] sm p hp
        exact ⟨⟨md, rfl⟩, ⟨[], rfl⟩, fun _ => ⟨sm, rfl⟩, ⟨md, mds, hd1⟩, ⟨[], pfs, hd2⟩,
          ⟨sm, sms, hd3⟩, ⟨y, hy⟩, hfmt, hlog⟩
    | cons q qs =>
      simp only [buildAttempt, h1, h2, except_bind_ok, except_pure, List.isEmpty_cons,
        if_false, Bool.false_eq_true] at hp
      obtain ⟨⟨mds, hd1⟩, ⟨pfs, hd2⟩, ⟨sms, hd3⟩, ⟨y, hy⟩, hfmt, hlog⟩ :=
        buildRest_ok_steps env md (q :: qs) [] p hp
      refine ⟨⟨md, rfl⟩, ⟨q :: qs, rfl⟩, ?_, ⟨md, mds, hd1⟩, ⟨q :: qs, pfs, hd2⟩,
        ⟨[], sms, hd3⟩, ⟨y, hy⟩, hfmt, hlog⟩
      intro hnil
      exact absurd (Except.ok.inj hnil) (by simp)
  · intro s
    rfl

/-- A concrete environment where every startup step succeeds. -/
def envW : StartupSteps :=
  { fetch_table_entry_metadata := .ok ["m"]
    fetch_bigquery_data_profiles := .ok ["p"]
    fetch_sample_data_for_tables := .ok []
    dumps_metadata := fun _ => .ok "M"
    dumps_profiles := fun _ => .ok "P"
    dumps_samples := fun _ => .ok "S"
    load_instructions_yaml := .ok ["sec1"]
    format_template := fun t a b c2 => .ok (t ++ a ++ b ++ c2)
    count_tokens := fun _ => .ok 7
    log_startup_kpis := .ok ()
    log_prompt_debug := .ok ()
    save_debug := .ok () }

/-- envW with the metadata fetch raising. -/
def envE : StartupSteps := { envW with fetch_table_entry_metadata := .error "boom" }

theorem c8_startup_prompt_resilience_witness :
    _build_master_instructions envE = "" ∧
    ((∃ md, envW.fetch_table_entry_metadata = .ok md) ∧
      (∃ pf, envW.fetch_bigquery_data_profiles = .ok pf) ∧
      (envW.fetch_bigquery_data_profiles = .ok [] →
        ∃ sm, envW.fetch_sample_data_for_tables = .ok sm) ∧
      (∃ md mds, envW.dumps_metadata md = .ok mds) ∧
      (∃ pf pfs, envW.dumps_profiles pf = .ok pfs) ∧
      (∃ sm sms, envW.dumps_samples sm = .ok sms) ∧
      (∃ y, envW.load_instructions_yaml = .ok y) ∧
      (∃ t a b c2, envW.format_template t a b c2 = .ok ("sec1" ++ "M" ++ "P" ++ "S")) ∧
      envW.log_startup_kpis = .ok ()) ∧
    _build_master_instructions { envW with save_debug := .error "disk full" } =
      _build_master_instructions envW :=
  ⟨(c8_startup_prompt_resilience envE).2.1 "boom" rfl,
    (c8_startup_prompt_resilience envW).2.2.1 ("sec1" ++ "M" ++ "P" ++ "S") rfl,
    (c8_startup_prompt_resilience envW).2.2.2 "disk full"⟩

end RetailT2Data
